import Mathlib

/-!
Verification development for the oxidizePdf analysis tooling.

The Python sources are embedded shallowly:
* `AnalyzePdfStructure` models `analyze_pdf_structure.py` (byte scanner over a
  raw buffer, modelled as `List Char`, one `Char` per byte of ASCII input).
* `AnalyzePdfsBatch` models `tools/pdf-analysis/analyze_pdfs_batch.py`
  (error categorisation, batch processing fold, checkpoint save/load).
* `AnalyzeAllPdfs` models `tools/analysis/analyze_all_pdfs.py` (per-file
  analysis with timeout/exception outcomes).
* `CycleModel` models the cycle-detection traversal of the specification
  (section 4.2, check 5); that traversal lives in the external Rust analyzer
  binary which the Python scripts invoke, so it is modelled from the spec.

Python exceptions are represented with `Except`; subprocess calls and file
contents are passed in as explicit function/data parameters, making the
embedded code deterministic and total.
-/

namespace OxidizePdf

/-- Boolean membership test, the model of Python's `in` operator on lists and
sets (sets are modelled as duplicate-free lists). -/
def memB {α : Type} [DecidableEq α] (a : α) : List α → Bool
  | [] => false
  | b :: l => if b = a then true else memB a l

/-- Boolean success test on `Except` (Python: "no exception was raised"). -/
def exceptOk {ε α : Type} : Except ε α → Bool
  | Except.ok _ => true
  | Except.error _ => false

namespace AnalyzePdfStructure

/-- Python's `\s` class: space, tab, newline, carriage return, vertical tab,
form feed. -/
def pyIsSpace (c : Char) : Bool :=
  c = ' ' || c = '\t' || c = '\n' || c = '\r' || c = '\x0b' || c = '\x0c'

/-- Maximal run of decimal digits at the head of the buffer (the greedy `\d+`),
returning the digits and the rest. -/
def digitRun : List Char → List Char × List Char
  | [] => ([], [])
  | c :: rest =>
    if c.isDigit then
      let p := digitRun rest
      (c :: p.1, p.2)
    else ([], c :: rest)

def digitVal (c : Char) : Nat := c.toNat - '0'.toNat

/-- Decimal value of a digit string, the model of Python `int(...)`. -/
def digitsToNat (ds : List Char) : Nat :=
  ds.foldl (fun a c => a * 10 + digitVal c) 0

/-- Match a literal character sequence at the head of the buffer; on success
return the remainder. -/
def stripLit : List Char → List Char → Option (List Char)
  | [], rest => some rest
  | _ :: _, [] => none
  | l :: ls, c :: cs => if c = l then stripLit ls cs else none

/-- Drop the maximal whitespace run at the head (the greedy `\s*`). -/
def skipWs : List Char → List Char
  | [] => []
  | c :: r => if pyIsSpace c then skipWs r else c :: r

/-- Require at least one whitespace character, then drop the maximal run
(the greedy `\s+`; every use site is followed by a non-whitespace pattern
element, so the maximal run is the unique viable choice). -/
def wsPlus (l : List Char) : Option (List Char) :=
  match l with
  | [] => none
  | c :: r => if pyIsSpace c then some (skipWs r) else none

def litObjSuffix : List Char := (" 0 obj").data

/-- One attempt of the object-header pattern `(\d+) 0 obj` anchored at the head
of the buffer.  `\d+` is greedy and the following pattern character is a space,
which no digit can match, so the maximal digit run is the only candidate. -/
def objHeaderAt (l : List Char) : Option (Nat × List Char) :=
  let p := digitRun l
  if p.1.isEmpty then none
  else
    match stripLit litObjSuffix p.2 with
    | some r => some (digitsToNat p.1, r)
    | none => none

/-- Fuel-driven left-to-right scan implementing `re.findall` for the header
pattern: try a match at every position, emitting non-overlapping matches. -/
def scanObjNums : Nat → List Char → List Nat
  | 0, _ => []
  | _ + 1, [] => []
  | fuel + 1, c :: rest =>
    match objHeaderAt (c :: rest) with
    | some (n, r) => n :: scanObjNums fuel r
    | none => scanObjNums fuel rest

/-- `re.findall(rb'(\d+) 0 obj', content)` as object numbers, in encounter
order, duplicates preserved. -/
def findObjHeaders (content : List Char) : List Nat :=
  scanObjNums content.length content

/-- Model of Python `max` over a list of naturals (only applied to non-empty
lists in the source, where the `0` seed is absorbed). -/
def pymax (l : List Nat) : Nat := l.foldl Nat.max 0

/-- Model of Python `min` over a non-empty list of naturals. -/
def pymin (l : List Nat) : Nat := l.foldl Nat.min (l.headD 0)

/-- Insertion of a value into a sorted list. -/
def insertSorted (x : Nat) : List Nat → List Nat
  | [] => [x]
  | y :: ys => if x ≤ y then x :: y :: ys else y :: insertSorted x ys

/-- Model of Python `sorted` on a list of naturals. -/
def insSort : List Nat → List Nat
  | [] => []
  | x :: xs => insertSorted x (insSort xs)

/-- The sequential-numbering loop of `analyze_pdf`:
`for i in range(1, max(obj_nums)): if i not in obj_nums: missing.append(i)`. -/
def missingNums (objNums : List Nat) : List Nat :=
  (List.range' 1 (pymax objNums - 1)).filter (fun i => ! memB i objNums)

/-- `re.search`-style scan: return the first position (left to right) where the
anchored matcher succeeds. -/
def firstSuffixGo {α : Type} (f : List Char → Option α) : Nat → List Char → Option α
  | 0, l => f l
  | _ + 1, [] => f []
  | fuel + 1, c :: rest =>
    match f (c :: rest) with
    | some a => some a
    | none => firstSuffixGo f fuel rest

def firstSuffix {α : Type} (f : List Char → Option α) (l : List Char) : Option α :=
  firstSuffixGo f l.length l

def litType : List Char := ("/Type").data

def litCatalog : List Char := ("/Catalog").data

/-- Anchored matcher for `/Type\s*/Catalog`. -/
def typeCatalogAt (l : List Char) : Option Unit :=
  match stripLit litType l with
  | none => none
  | some r =>
    match stripLit litCatalog (skipWs r) with
    | some _ => some ()
    | none => none

def litAcroForm : List Char := ("/AcroForm").data

def litOutlines : List Char := ("/Outlines").data

/-- Anchored matcher for `KEY\s+(\d+)\s+0\s+R`, returning the captured object
number.  Each greedy `\s+`/`\d+` is followed by a pattern element from a
disjoint character class, so maximal runs are the unique viable choices. -/
def refValAt (key : List Char) (l : List Char) : Option Nat :=
  match stripLit key l with
  | none => none
  | some r1 =>
    match wsPlus r1 with
    | none => none
    | some r2 =>
      let p := digitRun r2
      if p.1.isEmpty then none
      else
        match wsPlus p.2 with
        | none => none
        | some r4 =>
          match r4 with
          | '0' :: r5 =>
            match wsPlus r5 with
            | none => none
            | some r6 =>
              match r6 with
              | 'R' :: _ => some (digitsToNat p.1)
              | _ => none
          | _ => none

/-- For `\s*\n` (greedy with backtracking): consume the maximal whitespace run
up to and including its LAST newline; `none` when the maximal whitespace run at
the head contains no newline. -/
def afterLastNlInWs (l : List Char) : Option (List Char) :=
  match l with
  | [] => none
  | c :: r =>
    if pyIsSpace c then
      match afterLastNlInWs r with
      | some r2 => some r2
      | none => if c = '\n' then some r else none
    else none

def litXref : List Char := ("xref").data

/-- Anchored matcher for `xref\s*\n\s*(\d+)\s+(\d+)`; returns the two captured
numbers (xref start and declared entry count) and the buffer after the match
end, the model of `xref_match.end()`. -/
def xrefHeaderAt (l : List Char) : Option (Nat × Nat × List Char) :=
  match stripLit litXref l with
  | none => none
  | some r1 =>
    match afterLastNlInWs r1 with
    | none => none
    | some r2 =>
      let p1 := digitRun (skipWs r2)
      if p1.1.isEmpty then none
      else
        match wsPlus p1.2 with
        | none => none
        | some r5 =>
          let p2 := digitRun r5
          if p2.1.isEmpty then none
          else some (digitsToNat p1.1, digitsToNat p2.1, p2.2)

/-- Take exactly `n` decimal digits (`\d{10}` / `\d{5}`). -/
def takeDigits : Nat → List Char → Option (List Char × List Char)
  | 0, l => some ([], l)
  | _ + 1, [] => none
  | n + 1, c :: r =>
    if c.isDigit then
      match takeDigits n r with
      | some (ds, rest) => some (c :: ds, rest)
      | none => none
    else none

/-- Anchored matcher for one fixed-width xref entry
`(\d{10})\s+(\d{5})\s+([fn])`. -/
def xrefEntryAt (l : List Char) : Option ((Nat × Nat × Char) × List Char) :=
  match takeDigits 10 l with
  | none => none
  | some (d1, r1) =>
    match wsPlus r1 with
    | none => none
    | some r2 =>
      match takeDigits 5 r2 with
      | none => none
      | some (d2, r3) =>
        match wsPlus r3 with
        | none => none
        | some r4 =>
          match r4 with
          | c :: r5 =>
            if c = 'f' || c = 'n' then
              some ((digitsToNat d1, digitsToNat d2, c), r5)
            else none
          | [] => none

/-- `re.findall` scan for xref entries. -/
def scanXrefEntries : Nat → List Char → List (Nat × Nat × Char)
  | 0, _ => []
  | _ + 1, [] => []
  | fuel + 1, c :: rest =>
    match xrefEntryAt (c :: rest) with
    | some (e, r) => e :: scanXrefEntries fuel r
    | none => scanXrefEntries fuel rest

def xrefEntriesIn (l : List Char) : List (Nat × Nat × Char) :=
  scanXrefEntries l.length l

/-- Per-section results of the xref scan: the declared `(start, count)` header
values and the number of fixed-width entries actually found in the first
`count*20` bytes after the header. -/
structure XrefInfo where
  start : Nat
  count : Nat
  entriesFound : Nat
deriving DecidableEq, Repr

/-- Finding kinds expressible for this script's output.  `MissingObjects` and
`OutOfOrder` are the two warnings `analyze_pdf` emits; `XrefTruncated` and
`DuplicateObject` come from the spec's error taxonomy (section 7) so that
claims about them can be stated — the script never produces them. -/
inductive Finding where
  | MissingObjects : List Nat → Finding
  | OutOfOrder : Finding
  | XrefTruncated : Finding
  | DuplicateObject : Nat → Finding
deriving DecidableEq, Repr

/-- The sequential-numbering check's reported findings: one combined
missing-objects warning when the missing list is non-empty. -/
def seqNumberingFindings (missing : List Nat) : List Finding :=
  if missing.isEmpty then [] else [Finding.MissingObjects missing]

/-- The write-order check's reported findings. -/
def orderFindings (inOrder : Bool) : List Finding :=
  if inOrder then [] else [Finding.OutOfOrder]

/-- Everything `analyze_pdf` reports for one buffer. -/
structure AnalysisResult where
  objectNumbers : List Nat
  minObject : Nat
  maxObject : Nat
  missing : List Nat
  inOrder : Bool
  hasCatalog : Bool
  acroformRef : Option Nat
  outlinesRef : Option Nat
  xref : Option XrefInfo
  findings : List Finding
deriving DecidableEq, Repr

def valueErrorEmptyMin : String := "ValueError: min() arg is an empty sequence"

/-- `analyze_pdf` from `analyze_pdf_structure.py`, over an already-read byte
buffer (the `open`/`read` I/O is outside the model).  When the buffer contains
no object header, `min()` over the empty generator raises `ValueError`,
modelled as `Except.error`. -/
def analyze_pdf (content : List Char) : Except String AnalysisResult :=
  let objs := findObjHeaders content
  if objs.isEmpty then
    Except.error valueErrorEmptyMin
  else
    let objNums := insSort objs
    let missing := missingNums objNums
    let inOrder := objs == insSort objs
    let hasCat := (firstSuffix typeCatalogAt content).isSome
    let acro := if hasCat then firstSuffix (refValAt litAcroForm) content else none
    let outl := if hasCat then firstSuffix (refValAt litOutlines) content else none
    let xr := (firstSuffix xrefHeaderAt content).map
      (fun t => XrefInfo.mk t.1 t.2.1 (xrefEntriesIn (t.2.2.take (t.2.1 * 20))).length)
    Except.ok
      { objectNumbers := objs
        minObject := pymin objs
        maxObject := pymax objs
        missing := missing
        inOrder := inOrder
        hasCatalog := hasCat
        acroformRef := acro
        outlinesRef := outl
        xref := xr
        findings := seqNumberingFindings missing ++ orderFindings inOrder }

/-- A buffer whose xref header declares `count = 5` while only 4 fixed-width
entries are physically present (followed by the `trailer` keyword). -/
def xrefShortBuf : List Char :=
  ("1 0 obj\nendobj\nxref\n0 5\n0000000000 65535 f \n0000000017 00000 n \n0000000081 00000 n \n0000000120 00000 n \ntrailer").data

/-- The analysis result of `xrefShortBuf`. -/
def xrefShortRes : AnalysisResult :=
  { objectNumbers := [1]
    minObject := 1
    maxObject := 1
    missing := []
    inOrder := true
    hasCatalog := false
    acroformRef := none
    outlinesRef := none
    xref := some ⟨0, 5, 4⟩
    findings := [] }

/-- A buffer in which object number 1 appears in two object headers. -/
def dupObjBuf : List Char := ("1 0 obj\nendobj\n1 0 obj\nendobj\n").data

/-- The analysis result of `dupObjBuf`. -/
def dupObjRes : AnalysisResult :=
  { objectNumbers := [1, 1]
    minObject := 1
    maxObject := 1
    missing := []
    inOrder := true
    hasCatalog := false
    acroformRef := none
    outlinesRef := none
    xref := none
    findings := [] }

end AnalyzePdfStructure

/-- `sub in hay` on Python strings: substring containment. -/
def containsSub (hay sub : String) : Bool :=
  (AnalyzePdfStructure.firstSuffix
    (fun l => match AnalyzePdfStructure.stripLit sub.data l with
      | some _ => some ()
      | none => none) hay.data).isSome

/-- Python `str.lower()` (ASCII behaviour; the stderr texts matched by the
scripts are ASCII). -/
def lowerStr (s : String) : String := String.mk (s.data.map Char.toLower)

namespace AnalyzePdfsBatch

open AnalyzePdfStructure (stripLit firstSuffix)

def litMissingKeyOpen : List Char := ("MissingKey(\"").data

/-- Anchored matcher for `MissingKey\("([^"]+)"\)`, returning the captured
key.  `[^"]+` is greedy; any shorter run would put a non-quote character where
the closing `"` must match, so the maximal run is the unique candidate. -/
def missingKeyAt (l : List Char) : Option (List Char) :=
  match stripLit litMissingKeyOpen l with
  | none => none
  | some r =>
    let p := r.span (fun c => c != '"')
    if p.1.isEmpty then none
    else
      match p.2 with
      | '"' :: ')' :: _ => some p.1
      | _ => none

/-- `re.search(r'MissingKey\("([^"]+)"\)', stderr)`, first match's capture. -/
def searchMissingKey (s : String) : Option String :=
  (firstSuffix missingKeyAt s.data).map (fun l => String.mk l)

/-- `categorize_parse_error` from `analyze_pdfs_batch.py`: first matching
pattern in source order wins. -/
def categorize_parse_error (stderr : String) : String :=
  if containsSub stderr ("circular reference") then "PageTreeError: circular reference"
  else if containsSub stderr ("MissingKey") then
    match searchMissingKey stderr with
    | some key => "MissingKey: " ++ key
    | none => "MissingKey"
  else if containsSub stderr ("Invalid header") || containsSub stderr ("InvalidHeader") then
    "InvalidHeader"
  else if containsSub (lowerStr stderr) ("xref") || containsSub stderr ("XrefError") then
    if containsSub stderr ("Invalid xref table") then "XrefError: Invalid xref table"
    else "XrefError"
  else if containsSub stderr ("PageCount") then "PageCount: Other"
  else if containsSub stderr ("PageTreeError") then "PageTreeError: Other"
  else if containsSub (lowerStr stderr) ("encrypted") || containsSub (lowerStr stderr) ("encryption") then
    "EncryptionNotSupported"
  else if containsSub stderr ("EmptyFile") then "EmptyFile"
  else "Other"

/-- `categorize_render_error` from `analyze_pdfs_batch.py`. -/
def categorize_render_error (stderr : String) : String :=
  if containsSub stderr ("NotImplemented") then "NotImplemented: Missing feature"
  else if containsSub stderr ("InvalidColorSpace") then "InvalidColorSpace"
  else if containsSub stderr ("InvalidFont") || containsSub stderr ("FontError") then "FontError"
  else if containsSub stderr ("ImageDecoding") then "ImageDecoding: Unsupported format"
  else if containsSub stderr ("ContentStream") then "ContentStream: Invalid operations"
  else if containsSub stderr ("circular reference") then "CircularReference"
  else if containsSub (lowerStr stderr) ("encrypted") then "EncryptionNotSupported"
  else if containsSub (lowerStr stderr) ("timeout") then "Timeout"
  else "Other rendering error"

/-- Result of the parse subprocess (`cargo run ... info`), which the script
never wraps in a timeout. -/
structure PRes where
  returncode : Int
  stderr : String
deriving DecidableEq, Repr

/-- Result of the render subprocess call, which the script wraps in
`try/except`: it can complete, expire (`subprocess.TimeoutExpired`) or raise
some other exception. -/
inductive RenderCall where
  | completed (returncode : Int) (stderr : String)
  | timedOut
  | raised (msg : String)
deriving DecidableEq, Repr

/-- One entry of `stats['compatibility_issues']`. -/
structure Issue where
  file : String
  issue : String
  errDetail : Option String
deriving DecidableEq, Repr

/-- The `stats` dictionary of `analyze_pdfs_batch.py` (`defaultdict(int)`
histograms are modelled as association lists in insertion order). -/
structure Stats where
  total_processed : Nat
  parse_successful : Nat
  parse_failed : Nat
  render_successful : Nat
  render_failed : Nat
  both_successful : Nat
  parse_only_success : Nat
  render_only_success : Nat
  both_failed : Nat
  parse_error_types : List (String × Nat)
  render_error_types : List (String × Nat)
  compatibility_issues : List Issue
deriving DecidableEq, Repr

/-- `defaultdict(int)` increment: `d[k] += 1`. -/
def bumpCount : List (String × Nat) → String → List (String × Nat)
  | [], k => [(k, 1)]
  | (k', v) :: rest, k =>
    if k' = k then (k', v + 1) :: rest else (k', v) :: bumpCount rest k

/-- The in-memory run state: `stats` plus the `processed_files` set (modelled
as a duplicate-free list in insertion order, queried only by membership). -/
structure RunSt where
  stats : Stats
  processed : List String
deriving DecidableEq, Repr

def initStats : Stats :=
  { total_processed := 0
    parse_successful := 0
    parse_failed := 0
    render_successful := 0
    render_failed := 0
    both_successful := 0
    parse_only_success := 0
    render_only_success := 0
    both_failed := 0
    parse_error_types := []
    render_error_types := []
    compatibility_issues := [] }

def initSt : RunSt := { stats := initStats, processed := [] }

/-- The body of the `for pdf_file in pdf_batch` loop of `process_batch`:
analyze one file and fold its outcome into the statistics.  `parseOf` and
`renderOf` are the (deterministic) analyzer subprocess results per file. -/
def process_one (parseOf : String → PRes) (renderOf : String → RenderCall)
    (st : RunSt) (f : String) : RunSt :=
  if memB f st.processed then st
  else
    let pres := parseOf f
    let parse_success := pres.returncode == 0
    let rr :=
      match renderOf f with
      | RenderCall.completed rc rerr =>
        (rc == 0, if rc == 0 then none else some (categorize_render_error rerr))
      | RenderCall.timedOut => (false, some ("Timeout"))
      | RenderCall.raised m => (false, some ("Exception: " ++ m))
    let render_success := rr.1
    let render_error := rr.2
    let s0 := st.stats
    let s1 :=
      if parse_success then { s0 with parse_successful := s0.parse_successful + 1 }
      else
        { s0 with
          parse_failed := s0.parse_failed + 1
          parse_error_types :=
            bumpCount s0.parse_error_types (categorize_parse_error pres.stderr) }
    let s2 :=
      if render_success then { s1 with render_successful := s1.render_successful + 1 }
      else
        { s1 with
          render_failed := s1.render_failed + 1
          render_error_types :=
            match render_error with
            | some e => bumpCount s1.render_error_types e
            | none => s1.render_error_types }
    let s3 :=
      if parse_success && render_success then
        { s2 with both_successful := s2.both_successful + 1 }
      else if parse_success && ! render_success then
        { s2 with
          parse_only_success := s2.parse_only_success + 1
          compatibility_issues := s2.compatibility_issues ++
            [⟨f, "Parses but fails to render", render_error⟩] }
      else if ! parse_success && render_success then
        { s2 with
          render_only_success := s2.render_only_success + 1
          compatibility_issues := s2.compatibility_issues ++
            [⟨f, "Renders but fails to parse",
              some (categorize_parse_error pres.stderr)⟩] }
      else { s2 with both_failed := s2.both_failed + 1 }
    { stats := { s3 with total_processed := s3.total_processed + 1 }
      processed := st.processed ++ [f] }

/-- `process_batch` over one batch (duration bookkeeping omitted: the return
value `batch_duration` is used only for progress printing). -/
def process_batch (parseOf : String → PRes) (renderOf : String → RenderCall)
    (batch : List String) (st : RunSt) : RunSt :=
  batch.foldl (process_one parseOf renderOf) st

/-- The whole batch loop of `main`: the batches are consecutive slices of the
remaining-file list, so processing them in order is the fold over that list. -/
def run_batches (parseOf : String → PRes) (renderOf : String → RenderCall)
    (files : List String) (st : RunSt) : RunSt :=
  files.foldl (process_one parseOf renderOf) st

end AnalyzePdfsBatch

/-- JSON values, the serialisation format of the checkpoint file (the byte-level
text rendering of `json.dump`/`json.load` is outside the model; a corrupt file
is a text that fails to parse to any `J`, see `load_checkpoint`). -/
inductive J where
  | null : J
  | bool (b : Bool) : J
  | num (n : Int) : J
  | str (s : String) : J
  | arr (l : List J) : J
  | obj (l : List (String × J)) : J

namespace AnalyzePdfsBatch

def encode_issue (i : Issue) : J :=
  J.obj [("file", J.str i.file), ("issue", J.str i.issue),
         ("error", match i.errDetail with | some e => J.str e | none => J.null)]

/-- `dict(stats['..._error_types'])`: a `defaultdict` serialises as a plain
JSON object with integer values. -/
def encode_hist (h : List (String × Nat)) : J :=
  J.obj (h.map (fun kv => (kv.1, J.num (Int.ofNat kv.2))))

def encode_stats (s : Stats) : J :=
  J.obj
    [("total_processed", J.num (Int.ofNat s.total_processed)),
     ("parse_successful", J.num (Int.ofNat s.parse_successful)),
     ("parse_failed", J.num (Int.ofNat s.parse_failed)),
     ("render_successful", J.num (Int.ofNat s.render_successful)),
     ("render_failed", J.num (Int.ofNat s.render_failed)),
     ("both_successful", J.num (Int.ofNat s.both_successful)),
     ("parse_only_success", J.num (Int.ofNat s.parse_only_success)),
     ("render_only_success", J.num (Int.ofNat s.render_only_success)),
     ("both_failed", J.num (Int.ofNat s.both_failed)),
     ("parse_error_types", encode_hist s.parse_error_types),
     ("render_error_types", encode_hist s.render_error_types),
     ("compatibility_issues", J.arr (s.compatibility_issues.map encode_issue))]

/-- `save_checkpoint`: the checkpoint record written by `json.dump`. -/
def save_checkpoint (timestamp : String) (st : RunSt) : J :=
  J.obj [("timestamp", J.str timestamp),
         ("processed_files", J.arr (st.processed.map J.str)),
         ("stats", encode_stats st.stats)]

def jLookup : List (String × J) → String → Option J
  | [], _ => none
  | (k, v) :: rest, key => if k = key then some v else jLookup rest key

def asNat : J → Option Nat
  | J.num n => if n < 0 then none else some n.toNat
  | _ => none

def decode_histEntries : List (String × J) → Option (List (String × Nat))
  | [] => some []
  | (k, v) :: rest =>
    match asNat v, decode_histEntries rest with
    | some n, some tl => some ((k, n) :: tl)
    | _, _ => none

/-- `defaultdict(int, checkpoint['stats'][...])`: rebuild a histogram from its
JSON object. -/
def decode_hist : J → Option (List (String × Nat))
  | J.obj l => decode_histEntries l
  | _ => none

def decode_strList : List J → Option (List String)
  | [] => some []
  | J.str s :: rest =>
    match decode_strList rest with
    | some tl => some (s :: tl)
    | none => none
  | _ => none

def decode_issue : J → Option Issue
  | J.obj l =>
    match jLookup l ("file"), jLookup l ("issue"), jLookup l ("error") with
    | some (J.str f), some (J.str i), some e =>
      match e with
      | J.null => some ⟨f, i, none⟩
      | J.str s => some ⟨f, i, some s⟩
      | _ => none
    | _, _, _ => none
  | _ => none

def decode_issues : List J → Option (List Issue)
  | [] => some []
  | j :: rest =>
    match decode_issue j, decode_issues rest with
    | some i, some tl => some (i :: tl)
    | _, _ => none

/-- Reading `checkpoint['stats']` back into the in-memory shape the resumed
`main` uses (field accesses by key; a missing or ill-typed field is a
`KeyError`-style failure, `none`). -/
def decode_stats : J → Option Stats
  | J.obj l => do
    let tp ← jLookup l ("total_processed") >>= asNat
    let ps ← jLookup l ("parse_successful") >>= asNat
    let pf ← jLookup l ("parse_failed") >>= asNat
    let rs ← jLookup l ("render_successful") >>= asNat
    let rf ← jLookup l ("render_failed") >>= asNat
    let bs ← jLookup l ("both_successful") >>= asNat
    let pos ← jLookup l ("parse_only_success") >>= asNat
    let ros ← jLookup l ("render_only_success") >>= asNat
    let bf ← jLookup l ("both_failed") >>= asNat
    let pet ← jLookup l ("parse_error_types") >>= decode_hist
    let ret ← jLookup l ("render_error_types") >>= decode_hist
    let ci ←
      match jLookup l ("compatibility_issues") with
      | some (J.arr is) => decode_issues is
      | _ => none
    some
      { total_processed := tp
        parse_successful := ps
        parse_failed := pf
        render_successful := rs
        render_failed := rf
        both_successful := bs
        parse_only_success := pos
        render_only_success := ros
        both_failed := bf
        parse_error_types := pet
        render_error_types := ret
        compatibility_issues := ci }
  | _ => none

/-- The resumed `main`'s reads from a loaded checkpoint:
`set(checkpoint['processed_files'])` and `checkpoint['stats']`. -/
def decode_checkpoint : J → Option (List String × Stats)
  | J.obj l => do
    let pf ←
      match jLookup l ("processed_files") with
      | some (J.arr fs) => decode_strList fs
      | _ => none
    let st ← jLookup l ("stats") >>= decode_stats
    some (pf, st)
  | _ => none

/-- Resume path of `main --resume` after a checkpoint value has been loaded:
rebuild the state, filter out already-processed files, continue the batch
fold over the remainder. -/
def resume_run (parseOf : String → PRes) (renderOf : String → RenderCall)
    (files : List String) (cp : J) : Option RunSt :=
  match decode_checkpoint cp with
  | none => none
  | some (fs, stats) =>
    some (run_batches parseOf renderOf
      (files.filter (fun f => ! memB f fs)) ⟨stats, fs⟩)

/-- `load_checkpoint`: if the checkpoint file exists, `json.load` it —
a parse failure (corrupt file) raises and propagates, there is no handler.
`parse` is the model of `json.load` on the file's text. -/
def load_checkpoint (parse : String → Except String J) :
    Option String → Except String (Option J)
  | none => Except.ok none
  | some content => (parse content).map some

/-- Python truthiness of a JSON value (`if checkpoint:`). -/
def jTruthy : J → Bool
  | J.null => false
  | J.bool b => b
  | J.num n => n != 0
  | J.str s => ! s.isEmpty
  | J.arr l => ! l.isEmpty
  | J.obj l => ! l.isEmpty

/-- The `--resume` initialisation in `main`: load the checkpoint (a corrupt
file's exception propagates and aborts the run), and on a truthy checkpoint
rebuild the state from its fields (a missing field is a fatal `KeyError`). -/
def resume_init (parse : String → Except String J)
    (fileContent : Option String) : Except String RunSt :=
  match load_checkpoint parse fileContent with
  | Except.error e => Except.error e
  | Except.ok none => Except.ok initSt
  | Except.ok (some cp) =>
    if jTruthy cp then
      match decode_checkpoint cp with
      | some (fs, stats) => Except.ok ⟨stats, fs⟩
      | none => Except.error ("KeyError: checkpoint field missing or ill-typed")
    else Except.ok initSt

/-- Boolean prefix test on lists. -/
def listPrefixB {α : Type} [DecidableEq α] : List α → List α → Bool
  | [], _ => true
  | _ :: _, [] => false
  | a :: as2, b :: bs => if a = b then listPrefixB as2 bs else false

/-- Boolean prefix test on strings (to classify `"MissingKey: <key>"`
outputs). -/
def strPrefixB (p s : String) : Bool := listPrefixB p.data s.data

/-- The closed set of categories `categorize_parse_error` can produce. -/
inductive ParseCat where
  | circularReference
  | missingKey
  | invalidHeader
  | xrefError
  | pageCount
  | pageTreeOther
  | encryptionNotSupported
  | emptyFile
  | other
deriving DecidableEq, Repr

/-- Map a `categorize_parse_error` output string to its category; `none` for
any string outside the closed set. -/
def bucketOf (out : String) : Option ParseCat :=
  if out = "MissingKey" || strPrefixB ("MissingKey: ") out then some ParseCat.missingKey
  else if out = "PageTreeError: circular reference" then some ParseCat.circularReference
  else if out = "InvalidHeader" then some ParseCat.invalidHeader
  else if out = "XrefError" || out = "XrefError: Invalid xref table" then some ParseCat.xrefError
  else if out = "PageCount: Other" then some ParseCat.pageCount
  else if out = "PageTreeError: Other" then some ParseCat.pageTreeOther
  else if out = "EncryptionNotSupported" then some ParseCat.encryptionNotSupported
  else if out = "EmptyFile" then some ParseCat.emptyFile
  else if out = "Other" then some ParseCat.other
  else none

/-- The eight stderr patterns of `categorize_parse_error`, in priority order. -/
def hasCircRef (s : String) : Bool := containsSub s ("circular reference")

def hasMissingKey (s : String) : Bool := containsSub s ("MissingKey")

def hasInvalidHeader (s : String) : Bool :=
  containsSub s ("Invalid header") || containsSub s ("InvalidHeader")

def hasXref (s : String) : Bool :=
  containsSub (lowerStr s) ("xref") || containsSub s ("XrefError")

def hasPageCount (s : String) : Bool := containsSub s ("PageCount")

def hasPageTreeError (s : String) : Bool := containsSub s ("PageTreeError")

def hasEncryption (s : String) : Bool :=
  containsSub (lowerStr s) ("encrypted") || containsSub (lowerStr s) ("encryption")

def hasEmptyFile (s : String) : Bool := containsSub s ("EmptyFile")

/-- `categorize_parse_error` restated through the named pattern predicates
(definitionally equal to the source-shaped definition, see
`categorize_parse_error_eq_chain`). -/
def categorizeChain (s : String) : String :=
  if hasCircRef s then "PageTreeError: circular reference"
  else if hasMissingKey s then
    match searchMissingKey s with
    | some key => "MissingKey: " ++ key
    | none => "MissingKey"
  else if hasInvalidHeader s then "InvalidHeader"
  else if hasXref s then
    if containsSub s ("Invalid xref table") then "XrefError: Invalid xref table"
    else "XrefError"
  else if hasPageCount s then "PageCount: Other"
  else if hasPageTreeError s then "PageTreeError: Other"
  else if hasEncryption s then "EncryptionNotSupported"
  else if hasEmptyFile s then "EmptyFile"
  else "Other"

end AnalyzePdfsBatch

namespace AnalyzeAllPdfs

/-- Outcome of `subprocess.run([binary, "info", path], timeout=5)` as observed
by the `try` block of `analyze_pdf` in `analyze_all_pdfs.py`. -/
inductive SubpOutcome where
  | completed (returncode : Int) (stdout : String) (stderr : String)
  | timedOut
  | raised (msg : String)
deriving DecidableEq, Repr

/-- The per-file `result` dictionary of `analyze_all_pdfs.py`. -/
structure FileResult where
  file : String
  path : String
  size : Nat
  status : String
  error_type : Option String
  error_message : Option String
  pdf_version : Option String
deriving DecidableEq, Repr

/-- `os.path.basename`. -/
def basename (p : String) : String := (p.splitOn ("/")).getLastD p

/-- `line.split(':', 1)[1]`. -/
def afterFirstColon (line : String) : String :=
  String.intercalate (":") ((line.splitOn (":")).tail)

/-- The PDF-version extraction loop over stdout lines (the last matching line
wins, since each match overwrites `result['pdf_version']`). -/
def extractVersion (out : String) : Option String :=
  (out.splitOn ("\n")).foldl
    (fun acc line =>
      if containsSub line ("PDF Version:") then some (afterFirstColon line).trim
      else acc)
    none

/-- `analyze_pdf` from `analyze_all_pdfs.py`: every outcome — success, error,
timeout, exception — is converted into a `FileResult`; nothing escapes. -/
def analyze_pdf (runInfo : String → SubpOutcome) (getSize : String → Nat)
    (pdf_path : String) : FileResult :=
  let base : FileResult :=
    { file := basename pdf_path
      path := pdf_path
      size := getSize pdf_path
      status := "unknown"
      error_type := none
      error_message := none
      pdf_version := none }
  match runInfo pdf_path with
  | SubpOutcome.completed rc out err =>
    if rc == 0 then { base with status := "success", pdf_version := extractVersion out }
    else
      let stderr := err.trim
      let et :=
        if containsSub stderr ("PDF is encrypted") || containsSub stderr ("Encryption not supported") then
          "EncryptionNotSupported"
        else if containsSub stderr ("Invalid header") then "InvalidHeader"
        else if containsSub stderr ("Invalid cross-reference") || containsSub (lowerStr stderr) ("xref") then
          "InvalidXRef"
        else if containsSub stderr ("Character encoding") || containsSub (lowerStr stderr) ("encoding") then
          "CharacterEncoding"
        else if containsSub stderr ("Circular reference") then "CircularReference"
        else if containsSub stderr ("Invalid object reference") then "InvalidObjectReference"
        else if containsSub stderr ("Stream error") then "StreamError"
        else if containsSub stderr ("Syntax error") then "SyntaxError"
        else if containsSub stderr ("File is empty") then "EmptyFile"
        else "Other"
      { base with status := "error", error_message := some stderr, error_type := some et }
  | SubpOutcome.timedOut =>
    { base with
      status := "timeout"
      error_type := some ("Timeout")
      error_message := some ("Timeout after 5 seconds") }
  | SubpOutcome.raised m =>
    { base with
      status := "exception"
      error_type := some ("Exception")
      error_message := some m }

/-- The fan-out of `main`: one result per file.  The thread pool delivers
results in completion order, a permutation of this list; all aggregate counts
taken from it are permutation-invariant, so the submission-order list is the
canonical representative. -/
def runAll (runInfo : String → SubpOutcome) (getSize : String → Nat)
    (files : List String) : List FileResult :=
  files.map (analyze_pdf runInfo getSize)

end AnalyzeAllPdfs

namespace CycleModel

/-- Modelled from the spec: the cycle-detection check (section 4.2, check 5).
The traversal itself is implemented in the external Rust analyzer binary that
the Python scripts under `src/` invoke (they only map its stderr to the
`CircularReference` category), so the traversal is modelled from the spec's
words: "Traverse iteratively with an explicit stack (not call-stack recursion
...) and a per-path visited set; a back-edge onto the current path →
`CircularReference{path}`.  A single global visited set is carried across the
whole pass."  `stack` holds explicit frames (node, successors not yet
examined); `path` is the current DFS path (innermost first); `visited` is the
global visited set; `pending` holds the traversal roots not yet started;
`found` collects the `CircularReference{path}` findings. -/
structure DfsSt where
  pending : List Nat
  stack : List (Nat × List Nat)
  path : List Nat
  visited : List Nat
  found : List (List Nat)
deriving DecidableEq, Repr

/-- Modelled from the spec: one iteration of the traversal loop.  A terminal
state (empty stack, no pending roots) is a fixed point. -/
def step (adj : Nat → List Nat) (s : DfsSt) : DfsSt :=
  match s.stack, s.pending with
  | [], [] => s
  | [], r :: rs =>
    if memB r s.visited then { s with pending := rs }
    else
      { s with
        pending := rs
        stack := [(r, adj r)]
        path := [r]
        visited := r :: s.visited }
  | (_, []) :: rest, _ => { s with stack := rest, path := s.path.tail }
  | (u, v :: vs) :: rest, _ =>
    if memB v s.path then
      { s with stack := (u, vs) :: rest, found := s.found ++ [v :: s.path] }
    else if memB v s.visited then { s with stack := (u, vs) :: rest }
    else
      { s with
        stack := (v, adj v) :: (u, vs) :: rest
        path := v :: s.path
        visited := v :: s.visited }

/-- Iterate the loop a given number of times (the loop runs until terminal;
`dfsMeasure` below bounds the number of iterations needed). -/
def run (adj : Nat → List Nat) : Nat → DfsSt → DfsSt
  | 0, s => s
  | n + 1, s => run adj n (step adj s)

def initDfs (roots : List Nat) : DfsSt :=
  { pending := roots, stack := [], path := [], visited := [], found := [] }

/-- Terminal-state test: nothing left on the explicit stack and no pending
roots. -/
def doneB (s : DfsSt) : Bool := s.stack.isEmpty && s.pending.isEmpty

/-- Total successor-list length over the node set (an upper bound on the edge
work). -/
def eTotal (adj : Nat → List Nat) (nodes : List Nat) : Nat :=
  (nodes.map (fun u => (adj u).length)).sum

def unvisitedCount (nodes : List Nat) (s : DfsSt) : Nat :=
  (nodes.filter (fun x => ! memB x s.visited)).length

def remTotal (s : DfsSt) : Nat :=
  (s.stack.map (fun p => p.2.length)).sum

/-- Explicit termination measure for the traversal: every non-terminal step
strictly decreases it, so total work is bounded by a function of nodes and
edges, independently of cycle structure. -/
def dfsMeasure (adj : Nat → List Nat) (nodes : List Nat) (s : DfsSt) : Nat :=
  unvisitedCount nodes s * (2 * eTotal adj nodes + 2) +
    2 * remTotal s + s.stack.length + s.pending.length

/-- The whole cycle-detection pass: run the loop from the roots with fuel given
by the measure (shown sufficient below) and report the findings. -/
def detect_cycles (adj : Nat → List Nat) (nodes roots : List Nat) :
    List (List Nat) :=
  (run adj (dfsMeasure adj nodes (initDfs roots)) (initDfs roots)).found

/-- The graph is finite and closed: every edge target is again a node. -/
def Closed (adj : Nat → List Nat) (nodes : List Nat) : Prop :=
  ∀ u ∈ nodes, ∀ v ∈ adj u, v ∈ nodes

/-- Loop invariant: pending roots are nodes, every stack frame's node is a
node, and a frame's unexamined successors all come from its node's adjacency
list. -/
def Inv (adj : Nat → List Nat) (nodes : List Nat) (s : DfsSt) : Prop :=
  (∀ r ∈ s.pending, r ∈ nodes) ∧
    (∀ p ∈ s.stack, p.1 ∈ nodes ∧ ∀ v ∈ p.2, v ∈ adj p.1)

/-- The adversarial family of the spec's testable property: a page-tree-like
chain `0 → 1 → ⋯ → n` whose last node has a back-edge to one of its own
ancestors `a`. -/
def chainAdj (n a : Nat) : Nat → List Nat :=
  fun u => if u < n then [u + 1] else if u = n then [a] else []

/-- `[m-1, m-2, …, 0]`: the DFS path after descending the chain to node
`m-1`. -/
def revRange (m : Nat) : List Nat := (List.range m).reverse

/-- Intermediate state of the chain traversal: the DFS has descended to node
`i`, whose successors are not yet examined; every frame below it is
exhausted. -/
def chainStage (n a i : Nat) : DfsSt :=
  { pending := []
    stack := (i, chainAdj n a i) :: (revRange i).map (fun j => (j, []))
    path := revRange (i + 1)
    visited := revRange (i + 1)
    found := [] }

/-- State during the unwinding phase: `i` exhausted frames left to pop. -/
def popsSt (i : Nat) (vis : List Nat) (found : List (List Nat)) : DfsSt :=
  { pending := []
    stack := (revRange i).map (fun j => (j, []))
    path := revRange i
    visited := vis
    found := found }

end CycleModel

/-! ## Theorems -/

theorem memB_iff {α : Type} [DecidableEq α] (a : α) (l : List α) :
    memB a l = true ↔ a ∈ l := by
  induction l with
  | nil => simp [memB]
  | cons b l ih =>
    by_cases h : b = a
    · simp [memB, h]
    · have h2 : a ≠ b := fun hh => h hh.symm
      simp [memB, h, ih, h2]

theorem memB_eq_false_iff {α : Type} [DecidableEq α] (a : α) (l : List α) :
    memB a l = false ↔ a ∉ l := by
  rw [← memB_iff a l]
  cases memB a l <;> simp

theorem memB_append {α : Type} [DecidableEq α] (a : α) (l1 l2 : List α) :
    memB a (l1 ++ l2) = (memB a l1 || memB a l2) := by
  induction l1 with
  | nil => simp [memB]
  | cons b l ih =>
    by_cases h : b = a <;> simp [memB, h, ih]

namespace AnalyzePdfStructure

theorem foldl_max_le (m : Nat) :
    ∀ (l : List Nat) (a : Nat), a ≤ m → (∀ x ∈ l, x ≤ m) →
      l.foldl Nat.max a ≤ m := by
  intro l
  induction l with
  | nil => intro a ha _; simpa using ha
  | cons x xs ih =>
    intro a ha hall
    simp only [List.foldl]
    exact ih (Nat.max a x)
      (Nat.max_le.mpr ⟨ha, hall x (List.mem_cons_self x xs)⟩)
      (fun y hy => hall y (List.mem_cons_of_mem x hy))

theorem le_foldl_max : ∀ (l : List Nat) (a : Nat), a ≤ l.foldl Nat.max a := by
  intro l
  induction l with
  | nil => intro a; exact Nat.le_refl a
  | cons x xs ih =>
    intro a
    exact Nat.le_trans (Nat.le_max_left a x) (ih (Nat.max a x))

theorem mem_le_foldl_max :
    ∀ (l : List Nat) (a x : Nat), x ∈ l → x ≤ l.foldl Nat.max a := by
  intro l
  induction l with
  | nil => intro a x hx; cases hx
  | cons y ys ih =>
    intro a x hx
    cases hx with
    | head =>
      exact Nat.le_trans (Nat.le_max_right a y) (le_foldl_max ys (Nat.max a y))
    | tail _ hmem => exact ih (Nat.max a y) x hmem

theorem pymax_eq_of (l : List Nat) (m : Nat) (hm : m ∈ l)
    (hub : ∀ x ∈ l, x ≤ m) : pymax l = m :=
  Nat.le_antisymm (foldl_max_le m l 0 (Nat.zero_le m) hub)
    (mem_le_foldl_max l 0 m hm)

theorem filter_beq_range' (k : Nat) :
    ∀ (n s : Nat), s ≤ k → k < s + n →
      (List.range' s n).filter (fun i => i == k) = [k] := by
  intro n
  induction n with
  | zero => intro s h1 h2; omega
  | succ n ih =>
    intro s h1 h2
    rw [List.range'_succ]
    by_cases hs : s = k
    · subst hs
      have hnone : (List.range' (s + 1) n).filter (fun i => i == s) = [] := by
        rw [List.filter_eq_nil_iff]
        intro a ha
        have h3 := List.mem_range'_1.mp ha
        simp only [beq_iff_eq]
        omega
      simp [List.filter_cons, hnone]
    · have hbeq : (s == k) = false := by simp [hs]
      rw [List.filter_cons]
      simp only [hbeq, Bool.false_eq_true, if_false]
      exact ih (s + 1) (by omega) (by omega)

theorem missingNums_single (nums : List Nat) (m k : Nat)
    (hmem : ∀ i : Nat, i ∈ nums ↔ (1 ≤ i ∧ i ≤ m ∧ i ≠ k))
    (hk1 : 1 < k) (hkm : k < m) :
    missingNums nums = [k] := by
  have hmmem : m ∈ nums := (hmem m).mpr ⟨by omega, Nat.le_refl m, by omega⟩
  have hub : ∀ x ∈ nums, x ≤ m := fun x hx => ((hmem x).mp hx).2.1
  have hmax : pymax nums = m := pymax_eq_of nums m hmmem hub
  unfold missingNums
  rw [hmax]
  have hcong : ∀ i ∈ List.range' 1 (m - 1), (! memB i nums) = (i == k) := by
    intro i hi
    have hi2 := List.mem_range'_1.mp hi
    by_cases hik : i = k
    · subst hik
      have hni : i ∉ nums := fun hc => ((hmem i).mp hc).2.2 rfl
      have hmb : memB i nums = false := (memB_eq_false_iff i nums).mpr hni
      simp [hmb]
    · have hin : i ∈ nums := (hmem i).mpr ⟨by omega, by omega, hik⟩
      have hmb : memB i nums = true := (memB_iff i nums).mpr hin
      simp [hmb, hik]
  rw [List.filter_congr hcong]
  exact filter_beq_range' k (m - 1) 1 (by omega) (by omega)

theorem missingNums_complete (nums : List Nat) (m : Nat)
    (hmem : ∀ i : Nat, i ∈ nums ↔ (1 ≤ i ∧ i ≤ m)) :
    missingNums nums = [] := by
  unfold missingNums
  rw [List.filter_eq_nil_iff]
  intro a ha
  have ha2 := List.mem_range'_1.mp ha
  have hub : ∀ x ∈ nums, x ≤ m := fun x hx => ((hmem x).mp hx).2
  have hplm : pymax nums ≤ m := foldl_max_le m nums 0 (Nat.zero_le m) hub
  have hain : a ∈ nums := (hmem a).mpr ⟨by omega, by omega⟩
  simp [(memB_iff a nums).mpr hain]

/-- C4: a document whose scanned object numbers form the range `[1, m]` minus
exactly one `k` with `1 < k < m` makes the sequential-numbering check report
exactly the one missing number `k` (one combined missing-objects warning with
payload `[k]`), and a document with sequentially numbered objects `1..m`
yields an empty missing list and no missing-objects finding. -/
theorem claim_C4_missing_object :
    (∀ (nums : List Nat) (m k : Nat),
        (∀ i : Nat, i ∈ nums ↔ (1 ≤ i ∧ i ≤ m ∧ i ≠ k)) → 1 < k → k < m →
          missingNums nums = [k] ∧
            seqNumberingFindings (missingNums nums) =
              [Finding.MissingObjects [k]]) ∧
    (∀ (nums : List Nat) (m : Nat),
        (∀ i : Nat, i ∈ nums ↔ (1 ≤ i ∧ i ≤ m)) →
          missingNums nums = [] ∧
            seqNumberingFindings (missingNums nums) = []) := by
  constructor
  · intro nums m k hmem hk1 hkm
    have h := missingNums_single nums m k hmem hk1 hkm
    exact ⟨h, by rw [h]; rfl⟩
  · intro nums m hmem
    have h := missingNums_complete nums m hmem
    exact ⟨h, by rw [h]; rfl⟩

theorem claim_C4_missing_object_witness :
    missingNums [1, 2, 4, 5] = [3] ∧ missingNums [1, 2, 3] = [] :=
  ⟨(claim_C4_missing_object.1 [1, 2, 4, 5] 5 3
      (by intro i; simp [List.mem_cons]; omega) (by omega) (by omega)).1,
   (claim_C4_missing_object.2 [1, 2, 3] 3
      (by intro i; simp [List.mem_cons]; omega)).1⟩

/-- C2 (counterexample): a buffer with zero object headers — here the empty
buffer — makes `analyze_pdf` raise `ValueError` (from `min()` over an empty
sequence), contradicting the claim that the scan completes without raising for
such buffers. -/
theorem claim_C2_counterexample :
    analyze_pdf [] = Except.error valueErrorEmptyMin := rfl

/-- C2 (amended): the scan completes without an exception exactly when the
buffer contains at least one object header; for a buffer with zero object
headers `min()` over the empty sequence raises `ValueError`.  (Unreadable
input — an I/O failure — is outside the byte-level model and still raises.) -/
theorem claim_C2_scanner_no_exception (content : List Char) :
    (findObjHeaders content = [] →
        analyze_pdf content = Except.error valueErrorEmptyMin) ∧
    (findObjHeaders content ≠ [] → exceptOk (analyze_pdf content) = true) := by
  constructor
  · intro h
    simp [analyze_pdf, h]
  · intro h
    have hne : (findObjHeaders content).isEmpty = false := by
      cases hc : findObjHeaders content with
      | nil => exact absurd hc h
      | cons a l => rfl
    simp [analyze_pdf, hne, exceptOk]

theorem claim_C2_witness :
    exceptOk (analyze_pdf (("1 0 obj").data)) = true :=
  (claim_C2_scanner_no_exception _).2 (by decide)

theorem count_xrefTruncated_emitted (missing : List Nat) (inOrder : Bool) :
    List.count Finding.XrefTruncated
      (seqNumberingFindings missing ++ orderFindings inOrder) = 0 := by
  unfold seqNumberingFindings orderFindings
  split <;> split <;> simp [List.count_cons, List.count_append]

theorem dupObject_not_in_emitted (missing : List Nat) (inOrder : Bool)
    (n : Nat) :
    Finding.DuplicateObject n ∉
      (seqNumberingFindings missing ++ orderFindings inOrder) := by
  unfold seqNumberingFindings orderFindings
  split <;> split <;> simp

/-- C5 (counterexample): a buffer whose xref header declares 5 entries with
only 4 physically present produces a result that records the shortfall
(`declared = 5`, `found = 4`) but contains zero `XrefTruncated` findings —
not the exactly-one finding the claim states. -/
theorem claim_C5_counterexample :
    analyze_pdf xrefShortBuf = Except.ok xrefShortRes ∧
    xrefShortRes.xref = some ⟨0, 5, 4⟩ ∧
    List.count Finding.XrefTruncated xrefShortRes.findings = 0 :=
  ⟨rfl, rfl, rfl⟩

/-- C5 (amended): for every buffer whose xref section declares `c` entries
while only `f < c` are present, the scan records the pair (declared, found)
with `found < declared`, but emits zero `XrefTruncated` findings — the
shortfall is visible only in the two reported numbers. -/
theorem claim_C5_xref_truncation (content : List Char) (r : AnalysisResult)
    (h : analyze_pdf content = Except.ok r) (s c f : Nat)
    (hx : r.xref = some ⟨s, c, f⟩) (hlt : f < c) :
    List.count Finding.XrefTruncated r.findings = 0 := by
  cases hc : (findObjHeaders content).isEmpty with
  | true => simp [analyze_pdf, hc] at h
  | false =>
    simp only [analyze_pdf, hc, Bool.false_eq_true, if_false] at h
    rw [Except.ok.injEq] at h
    rw [← h]
    exact count_xrefTruncated_emitted _ _

theorem claim_C5_witness :
    List.count Finding.XrefTruncated xrefShortRes.findings = 0 :=
  claim_C5_xref_truncation xrefShortBuf xrefShortRes rfl 0 5 4 rfl
    (by omega)

/-- C9 (counterexample): a buffer in which object number 1 appears in two
headers keeps both occurrences in the scan result (`count = 2`, so the later
record does not overwrite the earlier one) and flags no anomaly finding. -/
theorem claim_C9_counterexample :
    analyze_pdf dupObjBuf = Except.ok dupObjRes ∧
    List.count 1 dupObjRes.objectNumbers = 2 ∧
    dupObjRes.findings = [] :=
  ⟨rfl, rfl, rfl⟩

/-- C9 (amended): duplicate object numbers are retained, not overwritten —
the scan result's object-number list is exactly the header match list in
encounter order (so every duplicate occurrence is kept) — and no
duplicate-number anomaly finding is emitted. -/
theorem claim_C9_duplicates_retained (content : List Char) (r : AnalysisResult)
    (h : analyze_pdf content = Except.ok r) :
    r.objectNumbers = findObjHeaders content ∧
    (∀ n : Nat, Finding.DuplicateObject n ∉ r.findings) := by
  cases hc : (findObjHeaders content).isEmpty with
  | true => simp [analyze_pdf, hc] at h
  | false =>
    simp only [analyze_pdf, hc, Bool.false_eq_true, if_false] at h
    rw [Except.ok.injEq] at h
    rw [← h]
    exact ⟨rfl, fun n => dupObject_not_in_emitted _ _ n⟩

theorem claim_C9_witness :
    dupObjRes.objectNumbers = findObjHeaders dupObjBuf :=
  (claim_C9_duplicates_retained dupObjBuf dupObjRes rfl).1

end AnalyzePdfStructure

namespace AnalyzePdfsBatch

theorem listPrefixB_append {α : Type} [DecidableEq α] :
    ∀ (p t : List α), listPrefixB p (p ++ t) = true := by
  intro p
  induction p with
  | nil => intro t; rfl
  | cons a as2 ih => intro t; simp [listPrefixB, ih]

theorem strPrefixB_append (p t : String) : strPrefixB p (p ++ t) = true := by
  unfold strPrefixB
  rw [String.data_append]
  exact listPrefixB_append p.data t.data

theorem bucketOf_missingKeyStr (key : String) :
    bucketOf ("MissingKey: " ++ key) = some ParseCat.missingKey := by
  unfold bucketOf
  rw [strPrefixB_append]
  simp

theorem categorize_eq_chain (s : String) :
    categorize_parse_error s = categorizeChain s := rfl

/-- C10: `categorize_parse_error` always lands in the fixed closed category
set, the category is chosen by the first matching stderr pattern in the fixed
priority order (circular reference, MissingKey, InvalidHeader, xref,
PageCount, PageTreeError, encryption, EmptyFile, otherwise Other); in
particular a stderr containing an xref phrase is never categorised as
`EncryptionNotSupported`, even when an encryption phrase is also present. -/
theorem claim_C10_categorize_priority (s : String) :
    (bucketOf (categorize_parse_error s)).isSome = true ∧
    (hasCircRef s = true →
      categorize_parse_error s = "PageTreeError: circular reference") ∧
    (hasCircRef s = false → hasMissingKey s = true →
      bucketOf (categorize_parse_error s) = some ParseCat.missingKey) ∧
    (hasCircRef s = false → hasMissingKey s = false →
      hasInvalidHeader s = true →
      categorize_parse_error s = "InvalidHeader") ∧
    (hasCircRef s = false → hasMissingKey s = false →
      hasInvalidHeader s = false → hasXref s = true →
      bucketOf (categorize_parse_error s) = some ParseCat.xrefError) ∧
    (hasCircRef s = false → hasMissingKey s = false →
      hasInvalidHeader s = false → hasXref s = false → hasPageCount s = true →
      categorize_parse_error s = "PageCount: Other") ∧
    (hasCircRef s = false → hasMissingKey s = false →
      hasInvalidHeader s = false → hasXref s = false → hasPageCount s = false →
      hasPageTreeError s = true →
      categorize_parse_error s = "PageTreeError: Other") ∧
    (hasCircRef s = false → hasMissingKey s = false →
      hasInvalidHeader s = false → hasXref s = false → hasPageCount s = false →
      hasPageTreeError s = false → hasEncryption s = true →
      categorize_parse_error s = "EncryptionNotSupported") ∧
    (hasCircRef s = false → hasMissingKey s = false →
      hasInvalidHeader s = false → hasXref s = false → hasPageCount s = false →
      hasPageTreeError s = false → hasEncryption s = false →
      hasEmptyFile s = true →
      categorize_parse_error s = "EmptyFile") ∧
    (hasCircRef s = false → hasMissingKey s = false →
      hasInvalidHeader s = false → hasXref s = false → hasPageCount s = false →
      hasPageTreeError s = false → hasEncryption s = false →
      hasEmptyFile s = false →
      categorize_parse_error s = "Other") ∧
    (hasXref s = true →
      bucketOf (categorize_parse_error s) ≠ some ParseCat.encryptionNotSupported) := by
  rw [categorize_eq_chain]
  unfold categorizeChain
  refine ⟨?_, ?_, ?_, ?_, ?_, ?_, ?_, ?_, ?_, ?_, ?_⟩
  · cases h1 : hasCircRef s with
    | true => simp [h1]; decide
    | false =>
      cases h2 : hasMissingKey s with
      | true =>
        simp only [h1, h2, Bool.false_eq_true, if_false, if_true]
        cases hk : searchMissingKey s with
        | some key => rw [bucketOf_missingKeyStr key]; rfl
        | none => decide
      | false =>
        cases h3 : hasInvalidHeader s with
        | true => simp [h1, h2, h3]; decide
        | false =>
          cases h4 : hasXref s with
          | true =>
            simp only [h1, h2, h3, h4, Bool.false_eq_true, if_false, if_true]
            cases h4b : containsSub s ("Invalid xref table") <;> simp [h4b] <;> decide
          | false =>
            cases h5 : hasPageCount s with
            | true => simp [h1, h2, h3, h4, h5]; decide
            | false =>
              cases h6 : hasPageTreeError s with
              | true => simp [h1, h2, h3, h4, h5, h6]; decide
              | false =>
                cases h7 : hasEncryption s with
                | true => simp [h1, h2, h3, h4, h5, h6, h7]; decide
                | false =>
                  cases h8 : hasEmptyFile s with
                  | true => simp [h1, h2, h3, h4, h5, h6, h7, h8]; decide
                  | false => simp [h1, h2, h3, h4, h5, h6, h7, h8]; decide
  · intro h1
    simp [h1]
  · intro h1 h2
    simp only [h1, h2, Bool.false_eq_true, if_false, if_true]
    cases hk : searchMissingKey s with
    | some key => exact bucketOf_missingKeyStr key
    | none => decide
  · intro h1 h2 h3
    simp [h1, h2, h3]
  · intro h1 h2 h3 h4
    simp only [h1, h2, h3, h4, Bool.false_eq_true, if_false, if_true]
    cases h4b : containsSub s ("Invalid xref table") <;> simp [h4b] <;> decide
  · intro h1 h2 h3 h4 h5
    simp [h1, h2, h3, h4, h5]
  · intro h1 h2 h3 h4 h5 h6
    simp [h1, h2, h3, h4, h5, h6]
  · intro h1 h2 h3 h4 h5 h6 h7
    simp [h1, h2, h3, h4, h5, h6, h7]
  · intro h1 h2 h3 h4 h5 h6 h7 h8
    simp [h1, h2, h3, h4, h5, h6, h7, h8]
  · intro h1 h2 h3 h4 h5 h6 h7 h8
    simp [h1, h2, h3, h4, h5, h6, h7, h8]
  · intro h4
    cases h1 : hasCircRef s with
    | true => simp [h1]; decide
    | false =>
      cases h2 : hasMissingKey s with
      | true =>
        simp only [h1, h2, Bool.false_eq_true, if_false, if_true]
        cases hk : searchMissingKey s with
        | some key => rw [bucketOf_missingKeyStr key]; simp
        | none => decide
      | false =>
        cases h3 : hasInvalidHeader s with
        | true => simp [h1, h2, h3]; decide
        | false =>
          simp only [h1, h2, h3, h4, Bool.false_eq_true, if_false, if_true]
          cases h4b : containsSub s ("Invalid xref table") <;> simp [h4b] <;> decide

theorem claim_C10_witness :
    bucketOf (categorize_parse_error ("Invalid xref table: the file is encrypted"))
      ≠ some ParseCat.encryptionNotSupported :=
  (claim_C10_categorize_priority ("Invalid xref table: the file is encrypted")).2.2.2.2.2.2.2.2.2.2
    (by decide)

theorem process_one_processed (p : String → PRes) (r : String → RenderCall)
    (st : RunSt) (f : String) :
    (process_one p r st f).processed =
      if memB f st.processed then st.processed else st.processed ++ [f] := by
  unfold process_one
  cases hf : memB f st.processed <;> simp [hf]

theorem process_one_skip (p : String → PRes) (r : String → RenderCall)
    (st : RunSt) (f : String) (h : memB f st.processed = true) :
    process_one p r st f = st := by
  unfold process_one
  simp [h]

theorem process_one_processed_mono (p : String → PRes) (r : String → RenderCall)
    (st : RunSt) (f x : String) (h : memB x st.processed = true) :
    memB x (process_one p r st f).processed = true := by
  rw [process_one_processed]
  cases hf : memB f st.processed with
  | true => simpa [hf] using h
  | false => simp [hf, memB_append, h]

theorem run_batches_cons (p : String → PRes) (r : String → RenderCall)
    (f : String) (l : List String) (st : RunSt) :
    run_batches p r (f :: l) st = run_batches p r l (process_one p r st f) := rfl

theorem run_batches_append (p : String → PRes) (r : String → RenderCall)
    (l1 l2 : List String) (st : RunSt) :
    run_batches p r (l1 ++ l2) st = run_batches p r l2 (run_batches p r l1 st) :=
  List.foldl_append _ _ _ _

theorem run_batches_processed_mono (p : String → PRes) (r : String → RenderCall)
    (l : List String) :
    ∀ (st : RunSt) (x : String), memB x st.processed = true →
      memB x (run_batches p r l st).processed = true := by
  induction l with
  | nil => intro st x h; exact h
  | cons f l ih =>
    intro st x h
    rw [run_batches_cons]
    exact ih _ x (process_one_processed_mono p r st f x h)

theorem run_batches_processed_complete (p : String → PRes)
    (r : String → RenderCall) :
    ∀ (l : List String) (st : RunSt) (f : String), f ∈ l →
      memB f (run_batches p r l st).processed = true := by
  intro l
  induction l with
  | nil => intro st f hf; cases hf
  | cons g l ih =>
    intro st f hf
    rw [run_batches_cons]
    cases hf with
    | head =>
      apply run_batches_processed_mono
      rw [process_one_processed]
      cases hg : memB g st.processed with
      | true => simp [hg]
      | false => simp [hg, memB_append, memB]
    | tail _ hmem => exact ih _ f hmem

theorem run_batches_skip_all (p : String → PRes) (r : String → RenderCall) :
    ∀ (l : List String) (st : RunSt),
      (∀ f ∈ l, memB f st.processed = true) → run_batches p r l st = st := by
  intro l
  induction l with
  | nil => intro st _; rfl
  | cons g l ih =>
    intro st hall
    rw [run_batches_cons, process_one_skip p r st g (hall g (List.mem_cons_self g l))]
    exact ih st (fun f hf => hall f (List.mem_cons_of_mem g hf))

theorem run_batches_filter_skip (p : String → PRes) (r : String → RenderCall) :
    ∀ (l : List String) (st : RunSt) (t : List String),
      (∀ x : String, memB x t = true → memB x st.processed = true) →
      run_batches p r (l.filter (fun f => ! memB f t)) st =
        run_batches p r l st := by
  intro l
  induction l with
  | nil => intro st t _; rfl
  | cons g l ih =>
    intro st t hsub
    rw [List.filter_cons]
    cases hg : memB g t with
    | true =>
      simp only [hg, Bool.not_true, Bool.false_eq_true, if_false]
      rw [run_batches_cons, process_one_skip p r st g (hsub g hg)]
      exact ih st t hsub
    | false =>
      simp only [hg, Bool.not_false, if_true]
      rw [run_batches_cons, run_batches_cons]
      exact ih (process_one p r st g) t
        (fun x hx => process_one_processed_mono p r st g x (hsub x hx))

theorem asNat_ofNat (n : Nat) : asNat (J.num (Int.ofNat n)) = some n := by
  have h : ¬ (Int.ofNat n < 0) := Int.not_lt.mpr (Int.ofNat_nonneg n)
  simp [asNat, h]

theorem histEntries_roundtrip :
    ∀ h : List (String × Nat),
      decode_histEntries (h.map (fun kv => (kv.1, J.num (Int.ofNat kv.2)))) =
        some h := by
  intro h
  induction h with
  | nil => rfl
  | cons kv rest ih =>
    rcases kv with ⟨k, v⟩
    simp only [List.map_cons, decode_histEntries]
    rw [asNat_ofNat, ih]

theorem hist_roundtrip (h : List (String × Nat)) :
    decode_hist (encode_hist h) = some h :=
  histEntries_roundtrip h

theorem strList_roundtrip :
    ∀ l : List String, decode_strList (l.map J.str) = some l := by
  intro l
  induction l with
  | nil => rfl
  | cons s rest ih => simp [List.map_cons, decode_strList, ih]

theorem issue_roundtrip (i : Issue) : decode_issue (encode_issue i) = some i := by
  rcases i with ⟨f, is2, ed⟩
  cases ed <;> simp [encode_issue, decode_issue, jLookup]

theorem issues_roundtrip :
    ∀ l : List Issue, decode_issues (l.map encode_issue) = some l := by
  intro l
  induction l with
  | nil => rfl
  | cons i rest ih => simp [List.map_cons, decode_issues, issue_roundtrip, ih]

theorem stats_roundtrip (s : Stats) : decode_stats (encode_stats s) = some s := by
  rcases s with ⟨tp, ps, pf, rs, rf, bs, pos, ros, bf, pet, ret, ci⟩
  simp only [encode_stats, decode_stats, jLookup, bind, Option.bind,
    String.reduceEq, if_true, if_false, reduceIte, asNat_ofNat,
    hist_roundtrip, issues_roundtrip]

theorem checkpoint_roundtrip (ts : String) (st : RunSt) :
    decode_checkpoint (save_checkpoint ts st) = some (st.processed, st.stats) := by
  simp [save_checkpoint, decode_checkpoint, jLookup, strList_roundtrip,
    stats_roundtrip]

/-- C8: saving any checkpoint state (processed-file set plus all statistics
counters, including the two nested error-type histograms and the
compatibility-issue list) and loading it back recovers exactly the same
processed-file set and the same statistics: the checkpoint round-trips
losslessly through save followed by load. -/
theorem claim_C8_checkpoint_roundtrip (ts : String) (st : RunSt) :
    decode_checkpoint (save_checkpoint ts st) = some (st.processed, st.stats) := by
  simp [save_checkpoint, decode_checkpoint, jLookup, strList_roundtrip,
    stats_roundtrip]

/-- C1: with a deterministic analyzer (fixed per-file parse and render
outcomes), an uninterrupted run over a corpus produces exactly the same final
state — all aggregate counters, the error-type histograms, and the
processed-file set — as a run interrupted after any prefix (in particular at
any batch boundary), checkpointed, and resumed with `--resume` over the
remaining files. -/
theorem claim_C1_resume_idempotent (parseOf : String → PRes)
    (renderOf : String → RenderCall) (files : List String) (n : Nat)
    (ts : String) :
    resume_run parseOf renderOf files
      (save_checkpoint ts (run_batches parseOf renderOf (files.take n) initSt)) =
    some (run_batches parseOf renderOf files initSt) := by
  unfold resume_run
  rw [checkpoint_roundtrip]
  show some (run_batches parseOf renderOf
      (files.filter (fun f => ! memB f
        (run_batches parseOf renderOf (files.take n) initSt).processed))
      (run_batches parseOf renderOf (files.take n) initSt)) =
    some (run_batches parseOf renderOf files initSt)
  congr 1
  set mid := run_batches parseOf renderOf (files.take n) initSt with hmid
  have hall : ∀ f ∈ files.take n, memB f mid.processed = true := by
    intro f hf
    rw [hmid]
    exact run_batches_processed_complete parseOf renderOf (files.take n) initSt f hf
  rw [run_batches_filter_skip parseOf renderOf files mid mid.processed
    (fun _ h => h)]
  conv_rhs => rw [← List.take_append_drop n files]
  rw [run_batches_append]
  rw [← hmid]
  conv_lhs => rw [← List.take_append_drop n files]
  rw [run_batches_append]
  rw [run_batches_skip_all parseOf renderOf (files.take n) mid hall]

/-- C3: a resume attempt on an existing but corrupt checkpoint file — one
whose contents `json.load` cannot parse — propagates the parse error out of
`load_checkpoint` and aborts initialisation: the caller never receives a
state, so it cannot silently start counting from zero while believing it has
resumed. -/
theorem claim_C3_corrupt_checkpoint (parse : String → Except String J)
    (content : String) (e : String) (h : parse content = Except.error e) :
    resume_init parse (some content) = Except.error e := by
  simp [resume_init, load_checkpoint, h, Except.map]

theorem claim_C3_witness :
    resume_init (fun _ => Except.error ("Expecting value")) (some ("not json")) =
      Except.error ("Expecting value") :=
  claim_C3_corrupt_checkpoint _ _ _ rfl

theorem process_one_render_timeout (p : String → PRes) (r : String → RenderCall)
    (st : RunSt) (f : String) (hr : r f = RenderCall.timedOut)
    (hnp : memB f st.processed = false) :
    (process_one p r st f).stats.total_processed =
        st.stats.total_processed + 1 ∧
    (process_one p r st f).stats.render_failed = st.stats.render_failed + 1 ∧
    (process_one p r st f).stats.render_error_types =
      bumpCount st.stats.render_error_types ("Timeout") ∧
    memB f (process_one p r st f).processed = true := by
  unfold process_one
  simp only [hnp, Bool.false_eq_true, if_false, hr]
  cases hp : (p f).returncode == 0 <;> simp [hp, memB_append, memB]

end AnalyzePdfsBatch

namespace AnalyzeAllPdfs

/-- C7: a file whose analysis subprocess exceeds the per-file timeout gets a
result recording the Timeout outcome for that file alone; every other file
still gets exactly one result, each file's result depends only on its own
subprocess outcome, and (in the batch runner) a render timeout is folded into
the statistics while processing of the remaining batch files continues —
a timeout never aborts the batch run. -/
theorem claim_C7_timeout_isolated (runInfo : String → SubpOutcome)
    (getSize : String → Nat) (files : List String) (f : String)
    (hf : f ∈ files) (ht : runInfo f = SubpOutcome.timedOut) :
    (runAll runInfo getSize files).length = files.length ∧
    (analyze_pdf runInfo getSize f).status = "timeout" ∧
    (analyze_pdf runInfo getSize f).error_type = some ("Timeout") ∧
    analyze_pdf runInfo getSize f ∈ runAll runInfo getSize files ∧
    (∀ runInfo2 : String → SubpOutcome,
        (∀ g : String, g ≠ f → runInfo2 g = runInfo g) →
        ∀ g : String, g ≠ f →
          analyze_pdf runInfo2 getSize g = analyze_pdf runInfo getSize g) ∧
    (∀ (parseOf : String → AnalyzePdfsBatch.PRes)
        (renderOf : String → AnalyzePdfsBatch.RenderCall)
        (batch : List String) (st : AnalyzePdfsBatch.RunSt) (g : String),
        g ∈ batch →
          memB g (AnalyzePdfsBatch.process_batch parseOf renderOf
            batch st).processed = true) ∧
    (∀ (parseOf : String → AnalyzePdfsBatch.PRes)
        (renderOf : String → AnalyzePdfsBatch.RenderCall)
        (st : AnalyzePdfsBatch.RunSt) (g : String),
        renderOf g = AnalyzePdfsBatch.RenderCall.timedOut →
        memB g st.processed = false →
          (AnalyzePdfsBatch.process_one parseOf renderOf st g).stats.render_error_types =
            AnalyzePdfsBatch.bumpCount st.stats.render_error_types ("Timeout") ∧
          memB g (AnalyzePdfsBatch.process_one parseOf renderOf st g).processed =
            true) := by
  refine ⟨?_, ?_, ?_, ?_, ?_, ?_, ?_⟩
  · exact List.length_map files (analyze_pdf runInfo getSize)
  · unfold analyze_pdf
    rw [ht]
  · unfold analyze_pdf
    rw [ht]
  · exact List.mem_map_of_mem (analyze_pdf runInfo getSize) hf
  · intro runInfo2 hagree g hg
    unfold analyze_pdf
    rw [hagree g hg]
  · intro parseOf renderOf batch st g hg
    exact AnalyzePdfsBatch.run_batches_processed_complete parseOf renderOf
      batch st g hg
  · intro parseOf renderOf st g hr hnp
    exact ⟨(AnalyzePdfsBatch.process_one_render_timeout parseOf renderOf
        st g hr hnp).2.2.1,
      (AnalyzePdfsBatch.process_one_render_timeout parseOf renderOf
        st g hr hnp).2.2.2⟩

theorem claim_C7_witness :
    (analyze_pdf (fun _ => SubpOutcome.timedOut) (fun _ => 0)
      ("a.pdf")).status = "timeout" :=
  (claim_C7_timeout_isolated (fun _ => SubpOutcome.timedOut) (fun _ => 0)
    ["a.pdf"] ("a.pdf") (List.mem_singleton.mpr rfl) rfl).2.1

end AnalyzeAllPdfs

theorem length_filter_imp {α : Type} (p q : α → Bool)
    (h : ∀ y, p y = true → q y = true) :
    ∀ l : List α, (l.filter p).length ≤ (l.filter q).length := by
  intro l
  induction l with
  | nil => simp
  | cons a l ih =>
    rw [List.filter_cons, List.filter_cons]
    cases hp : p a with
    | true =>
      rw [h a hp]
      simpa using ih
    | false =>
      simp only [Bool.false_eq_true, if_false]
      cases hq : q a with
      | true => simp only [if_true, List.length_cons]; exact Nat.le_succ_of_le ih
      | false => simp only [Bool.false_eq_true, if_false]; exact ih

theorem length_filter_imp_lt {α : Type} (p q : α → Bool) (x : α)
    (h : ∀ y, p y = true → q y = true) (hpx : p x = false) (hqx : q x = true) :
    ∀ l : List α, x ∈ l → (l.filter p).length < (l.filter q).length := by
  intro l hx
  induction l with
  | nil => cases hx
  | cons a l ih =>
    rw [List.filter_cons, List.filter_cons]
    cases hx with
    | head =>
      rw [hpx, hqx]
      simp only [Bool.false_eq_true, if_false, if_true, List.length_cons]
      exact Nat.lt_succ_of_le (length_filter_imp p q h l)
    | tail _ hmem =>
      cases hp : p a with
      | true =>
        rw [h a hp]
        simp only [if_true, List.length_cons]
        exact Nat.succ_lt_succ (ih hmem)
      | false =>
        simp only [Bool.false_eq_true, if_false]
        cases hq : q a with
        | true =>
          simp only [if_true, List.length_cons]
          exact Nat.lt_succ_of_lt (ih hmem)
        | false =>
          simp only [Bool.false_eq_true, if_false]
          exact ih hmem

namespace CycleModel

theorem run_succ (adj : Nat → List Nat) (k : Nat) (s : DfsSt) :
    run adj (k + 1) s = run adj k (step adj s) := rfl

theorem run_succ_outer (adj : Nat → List Nat) :
    ∀ (k : Nat) (s : DfsSt), run adj (k + 1) s = step adj (run adj k s) := by
  intro k
  induction k with
  | zero => intro s; rfl
  | succ k ih =>
    intro s
    rw [run_succ adj (k + 1) s, ih (step adj s), ← run_succ adj k s]

theorem run_add (adj : Nat → List Nat) :
    ∀ (a b : Nat) (s : DfsSt), run adj (a + b) s = run adj a (run adj b s) := by
  intro a b
  induction b with
  | zero => intro s; rfl
  | succ b ih =>
    intro s
    rw [Nat.add_succ, run_succ, run_succ, ih (step adj s)]

theorem step_done (adj : Nat → List Nat) (s : DfsSt) (h : doneB s = true) :
    step adj s = s := by
  rcases s with ⟨pend, stk, path, vis, found⟩
  cases stk with
  | nil =>
    cases pend with
    | nil => rfl
    | cons r rs => simp [doneB] at h
  | cons p rest => simp [doneB] at h

theorem run_done (adj : Nat → List Nat) :
    ∀ (k : Nat) (s : DfsSt), doneB s = true → run adj k s = s := by
  intro k
  induction k with
  | zero => intro s _; rfl
  | succ k ih =>
    intro s h
    rw [run_succ, step_done adj s h]
    exact ih s h

theorem step_root_visited (adj : Nat → List Nat) (r : Nat) (rs path vis : List Nat)
    (found : List (List Nat)) (h : memB r vis = true) :
    step adj ⟨r :: rs, [], path, vis, found⟩ = ⟨rs, [], path, vis, found⟩ := by
  simp [step, h]

theorem step_root_new (adj : Nat → List Nat) (r : Nat) (rs path vis : List Nat)
    (found : List (List Nat)) (h : memB r vis = false) :
    step adj ⟨r :: rs, [], path, vis, found⟩ =
      ⟨rs, [(r, adj r)], [r], r :: vis, found⟩ := by
  simp [step, h]

theorem step_pop (adj : Nat → List Nat) (pend : List Nat) (u : Nat)
    (rest : List (Nat × List Nat)) (path vis : List Nat)
    (found : List (List Nat)) :
    step adj ⟨pend, (u, []) :: rest, path, vis, found⟩ =
      ⟨pend, rest, path.tail, vis, found⟩ := by
  simp [step]

theorem step_backedge (adj : Nat → List Nat) (pend : List Nat) (u v : Nat)
    (vs : List Nat) (rest : List (Nat × List Nat)) (path vis : List Nat)
    (found : List (List Nat)) (h : memB v path = true) :
    step adj ⟨pend, (u, v :: vs) :: rest, path, vis, found⟩ =
      ⟨pend, (u, vs) :: rest, path, vis, found ++ [v :: path]⟩ := by
  simp [step, h]

theorem step_skip (adj : Nat → List Nat) (pend : List Nat) (u v : Nat)
    (vs : List Nat) (rest : List (Nat × List Nat)) (path vis : List Nat)
    (found : List (List Nat)) (h1 : memB v path = false)
    (h2 : memB v vis = true) :
    step adj ⟨pend, (u, v :: vs) :: rest, path, vis, found⟩ =
      ⟨pend, (u, vs) :: rest, path, vis, found⟩ := by
  simp [step, h1, h2]

theorem step_push (adj : Nat → List Nat) (pend : List Nat) (u v : Nat)
    (vs : List Nat) (rest : List (Nat × List Nat)) (path vis : List Nat)
    (found : List (List Nat)) (h1 : memB v path = false)
    (h2 : memB v vis = false) :
    step adj ⟨pend, (u, v :: vs) :: rest, path, vis, found⟩ =
      ⟨pend, (v, adj v) :: (u, vs) :: rest, v :: path, v :: vis, found⟩ := by
  simp [step, h1, h2]

theorem unvisited_lt (nodes vis : List Nat) (x : Nat) (hx : x ∈ nodes)
    (hv : memB x vis = false) :
    (nodes.filter (fun y => ! memB y (x :: vis))).length <
      (nodes.filter (fun y => ! memB y vis)).length := by
  apply length_filter_imp_lt _ _ x ?_ ?_ ?_ nodes hx
  · intro y hy
    by_cases hxy : x = y
    · subst hxy
      simp [memB] at hy
    · simpa [memB, hxy] using hy
  · simp [memB]
  · simp [hv]

theorem adj_le_eTotal (adj : Nat → List Nat) (nodes : List Nat) (v : Nat)
    (hv : v ∈ nodes) : (adj v).length ≤ eTotal adj nodes :=
  List.single_le_sum (fun x _ => Nat.zero_le x) _
    (List.mem_map_of_mem (fun u => (adj u).length) hv)

theorem inv_init (adj : Nat → List Nat) (nodes roots : List Nat)
    (hroots : ∀ r ∈ roots, r ∈ nodes) : Inv adj nodes (initDfs roots) :=
  ⟨hroots, fun p hp => absurd hp (List.not_mem_nil p)⟩

theorem inv_step (adj : Nat → List Nat) (nodes : List Nat)
    (hc : Closed adj nodes) (s : DfsSt) (hi : Inv adj nodes s) :
    Inv adj nodes (step adj s) := by
  rcases s with ⟨pend, stk, path, vis, found⟩
  rcases hi with ⟨hpend, hstk⟩
  cases stk with
  | nil =>
    cases pend with
    | nil => exact ⟨hpend, hstk⟩
    | cons r rs =>
      cases hv : memB r vis with
      | true =>
        rw [step_root_visited adj r rs path vis found hv]
        exact ⟨fun x hx => hpend x (List.mem_cons_of_mem r hx), hstk⟩
      | false =>
        rw [step_root_new adj r rs path vis found hv]
        refine ⟨fun x hx => hpend x (List.mem_cons_of_mem r hx), ?_⟩
        intro p hp
        rw [List.mem_singleton] at hp
        subst hp
        exact ⟨hpend r (List.mem_cons_self r rs), fun v hv2 => hv2⟩
  | cons fr rest =>
    rcases fr with ⟨u, vs⟩
    have hu := hstk (u, vs) (List.mem_cons_self _ rest)
    cases vs with
    | nil =>
      rw [step_pop]
      exact ⟨hpend, fun p hp => hstk p (List.mem_cons_of_mem _ hp)⟩
    | cons v vs2 =>
      have hvadj : v ∈ adj u := hu.2 v (List.mem_cons_self v vs2)
      have hfr2 : ∀ p ∈ ((u, vs2) :: rest),
          p.1 ∈ nodes ∧ ∀ w ∈ p.2, w ∈ adj p.1 := by
        intro p hp
        cases hp with
        | head => exact ⟨hu.1, fun w hw => hu.2 w (List.mem_cons_of_mem v hw)⟩
        | tail _ hmem => exact hstk p (List.mem_cons_of_mem _ hmem)
      cases hp1 : memB v path with
      | true =>
        rw [step_backedge adj pend u v vs2 rest path vis found hp1]
        exact ⟨hpend, hfr2⟩
      | false =>
        cases hv1 : memB v vis with
        | true =>
          rw [step_skip adj pend u v vs2 rest path vis found hp1 hv1]
          exact ⟨hpend, hfr2⟩
        | false =>
          rw [step_push adj pend u v vs2 rest path vis found hp1 hv1]
          refine ⟨hpend, ?_⟩
          intro p hp
          cases hp with
          | head => exact ⟨hc u hu.1 v hvadj, fun w hw => hw⟩
          | tail _ hmem => exact hfr2 p hmem

theorem dfsMeasure_step_lt (adj : Nat → List Nat) (nodes : List Nat)
    (hc : Closed adj nodes) (s : DfsSt) (hi : Inv adj nodes s)
    (hnd : doneB s = false) :
    dfsMeasure adj nodes (step adj s) < dfsMeasure adj nodes s := by
  rcases s with ⟨pend, stk, path, vis, found⟩
  rcases hi with ⟨hpend, hstk⟩
  cases stk with
  | nil =>
    cases pend with
    | nil => simp [doneB] at hnd
    | cons r rs =>
      cases hv : memB r vis with
      | true =>
        rw [step_root_visited adj r rs path vis found hv]
        simp [dfsMeasure, unvisitedCount, remTotal]
      | false =>
        rw [step_root_new adj r rs path vis found hv]
        have hrn : r ∈ nodes := hpend r (List.mem_cons_self r rs)
        have hUlt : (nodes.filter (fun y => ! memB y (r :: vis))).length + 1 ≤
            (nodes.filter (fun y => ! memB y vis)).length :=
          unvisited_lt nodes vis r hrn hv
        have hE : (adj r).length ≤ eTotal adj nodes :=
          adj_le_eTotal adj nodes r hrn
        have hmul :
            (nodes.filter (fun y => ! memB y (r :: vis))).length *
                (2 * eTotal adj nodes + 2) + (2 * eTotal adj nodes + 2) ≤
              (nodes.filter (fun y => ! memB y vis)).length *
                (2 * eTotal adj nodes + 2) := by
          calc (nodes.filter (fun y => ! memB y (r :: vis))).length *
                (2 * eTotal adj nodes + 2) + (2 * eTotal adj nodes + 2)
              = ((nodes.filter (fun y => ! memB y (r :: vis))).length + 1) *
                (2 * eTotal adj nodes + 2) := by ring
            _ ≤ (nodes.filter (fun y => ! memB y vis)).length *
                (2 * eTotal adj nodes + 2) :=
                Nat.mul_le_mul_right _ hUlt
        simp only [dfsMeasure, unvisitedCount, remTotal, List.map_cons,
          List.map_nil, List.sum_cons, List.sum_nil, List.length_cons,
          List.length_nil]
        omega
  | cons fr rest =>
    rcases fr with ⟨u, vs⟩
    have hu := hstk (u, vs) (List.mem_cons_self _ rest)
    cases vs with
    | nil =>
      rw [step_pop]
      simp [dfsMeasure, unvisitedCount, remTotal]
    | cons v vs2 =>
      cases hp1 : memB v path with
      | true =>
        rw [step_backedge adj pend u v vs2 rest path vis found hp1]
        simp [dfsMeasure, unvisitedCount, remTotal]
      | false =>
        cases hv1 : memB v vis with
        | true =>
          rw [step_skip adj pend u v vs2 rest path vis found hp1 hv1]
          simp [dfsMeasure, unvisitedCount, remTotal]
        | false =>
          rw [step_push adj pend u v vs2 rest path vis found hp1 hv1]
          have hvadj : v ∈ adj u := hu.2 v (List.mem_cons_self v vs2)
          have hvn : v ∈ nodes := hc u hu.1 v hvadj
          have hUlt : (nodes.filter (fun y => ! memB y (v :: vis))).length + 1 ≤
              (nodes.filter (fun y => ! memB y vis)).length :=
            unvisited_lt nodes vis v hvn hv1
          have hE : (adj v).length ≤ eTotal adj nodes :=
            adj_le_eTotal adj nodes v hvn
          have hmul :
              (nodes.filter (fun y => ! memB y (v :: vis))).length *
                  (2 * eTotal adj nodes + 2) + (2 * eTotal adj nodes + 2) ≤
                (nodes.filter (fun y => ! memB y vis)).length *
                  (2 * eTotal adj nodes + 2) := by
            calc (nodes.filter (fun y => ! memB y (v :: vis))).length *
                  (2 * eTotal adj nodes + 2) + (2 * eTotal adj nodes + 2)
                = ((nodes.filter (fun y => ! memB y (v :: vis))).length + 1) *
                  (2 * eTotal adj nodes + 2) := by ring
              _ ≤ (nodes.filter (fun y => ! memB y vis)).length *
                  (2 * eTotal adj nodes + 2) :=
                  Nat.mul_le_mul_right _ hUlt
          simp only [dfsMeasure, unvisitedCount, remTotal, List.map_cons,
            List.sum_cons, List.length_cons]
          omega

theorem run_term (adj : Nat → List Nat) (nodes : List Nat)
    (hc : Closed adj nodes) :
    ∀ (k : Nat) (s : DfsSt), Inv adj nodes s → dfsMeasure adj nodes s ≤ k →
      doneB (run adj k s) = true := by
  intro k
  induction k with
  | zero =>
    intro s hi hm
    cases hd : doneB s with
    | true => exact hd
    | false =>
      exact absurd
        (Nat.lt_of_lt_of_le (dfsMeasure_step_lt adj nodes hc s hi hd) hm)
        (Nat.not_lt_zero _)
  | succ k ih =>
    intro s hi hm
    cases hd : doneB s with
    | true =>
      rw [run_done adj (k + 1) s hd]
      exact hd
    | false =>
      rw [run_succ]
      refine ih (step adj s) (inv_step adj nodes hc s hi) ?_
      have := dfsMeasure_step_lt adj nodes hc s hi hd
      omega

theorem revRange_succ (m : Nat) : revRange (m + 1) = m :: revRange m := by
  unfold revRange
  rw [List.range_succ, List.reverse_append]
  rfl

theorem mem_revRange (x m : Nat) : x ∈ revRange m ↔ x < m := by
  unfold revRange
  simp [List.mem_range]

theorem memB_revRange_false (x m : Nat) (h : ¬ x < m) :
    memB x (revRange m) = false :=
  (memB_eq_false_iff _ _).mpr (fun hm => h ((mem_revRange x m).mp hm))

theorem memB_revRange_true (x m : Nat) (h : x < m) :
    memB x (revRange m) = true :=
  (memB_iff _ _).mpr ((mem_revRange x m).mpr h)

theorem chainAdj_lt (n a u : Nat) (h : u < n) : chainAdj n a u = [u + 1] := by
  simp [chainAdj, h]

theorem chainAdj_self (n a : Nat) : chainAdj n a n = [a] := by
  simp [chainAdj]

theorem chain_step0 (n a : Nat) :
    step (chainAdj n a) (initDfs [0]) = chainStage n a 0 := by
  show step (chainAdj n a) ⟨[0], [], [], [], []⟩ = chainStage n a 0
  rw [step_root_new (chainAdj n a) 0 [] [] [] [] rfl]
  rfl

theorem chain_climb (n a i : Nat) (h : i < n) :
    step (chainAdj n a) (chainStage n a i) = chainStage n a (i + 1) := by
  show step (chainAdj n a)
      ⟨[], (i, chainAdj n a i) :: (revRange i).map (fun j => (j, [])),
        revRange (i + 1), revRange (i + 1), []⟩ =
    chainStage n a (i + 1)
  rw [chainAdj_lt n a i h]
  rw [step_push (chainAdj n a) [] i (i + 1) []
    ((revRange i).map (fun j => (j, []))) (revRange (i + 1)) (revRange (i + 1))
    [] (memB_revRange_false (i + 1) (i + 1) (by omega))
    (memB_revRange_false (i + 1) (i + 1) (by omega))]
  show (⟨[], (i + 1, chainAdj n a (i + 1)) :: (i, ([] : List Nat)) ::
      (revRange i).map (fun j => (j, [])), (i + 1) :: revRange (i + 1),
      (i + 1) :: revRange (i + 1), []⟩ : DfsSt) = chainStage n a (i + 1)
  unfold chainStage
  simp [revRange_succ]

theorem chain_run_climb (n a : Nat) :
    ∀ i, i ≤ n →
      run (chainAdj n a) i (chainStage n a 0) = chainStage n a i := by
  intro i
  induction i with
  | zero => intro _; rfl
  | succ i ih =>
    intro h
    rw [run_succ_outer, ih (by omega), chain_climb n a i (by omega)]

theorem chain_backedge (n a : Nat) (ha : a ≤ n) :
    step (chainAdj n a) (chainStage n a n) =
      popsSt (n + 1) (revRange (n + 1)) [a :: revRange (n + 1)] := by
  show step (chainAdj n a)
      ⟨[], (n, chainAdj n a n) :: (revRange n).map (fun j => (j, [])),
        revRange (n + 1), revRange (n + 1), []⟩ =
    popsSt (n + 1) (revRange (n + 1)) [a :: revRange (n + 1)]
  rw [chainAdj_self]
  rw [step_backedge (chainAdj n a) [] n a []
    ((revRange n).map (fun j => (j, []))) (revRange (n + 1)) (revRange (n + 1))
    [] (memB_revRange_true a (n + 1) (by omega))]
  unfold popsSt
  rw [revRange_succ n]
  simp

theorem step_pops (adj : Nat → List Nat) (i : Nat) (vis : List Nat)
    (F : List (List Nat)) :
    step adj (popsSt (i + 1) vis F) = popsSt i vis F := by
  show step adj
      ⟨[], ((revRange (i + 1)).map (fun j => (j, []))), revRange (i + 1),
        vis, F⟩ = popsSt i vis F
  rw [revRange_succ i]
  simp only [List.map_cons]
  rw [step_pop]
  unfold popsSt
  simp

theorem pops_run (adj : Nat → List Nat) (vis : List Nat)
    (F : List (List Nat)) :
    ∀ i, run adj i (popsSt i vis F) = popsSt 0 vis F := by
  intro i
  induction i with
  | zero => rfl
  | succ i ih =>
    rw [run_succ, step_pops adj i vis F]
    exact ih

theorem popsSt_zero_done (vis : List Nat) (F : List (List Nat)) :
    doneB (popsSt 0 vis F) = true := rfl

theorem chain_trace (n a : Nat) (ha : a ≤ n) :
    run (chainAdj n a) (2 * n + 3) (initDfs [0]) =
      popsSt 0 (revRange (n + 1)) [a :: revRange (n + 1)] := by
  rw [show 2 * n + 3 = (2 * n + 2) + 1 from rfl, run_succ, chain_step0]
  rw [show 2 * n + 2 = (n + 2) + n from by omega, run_add]
  rw [chain_run_climb n a n (Nat.le_refl n)]
  rw [show n + 2 = (n + 1) + 1 from rfl, run_succ, chain_backedge n a ha]
  exact pops_run (chainAdj n a) _ _ (n + 1)

theorem unvisitedCount_init (nodes roots : List Nat) :
    unvisitedCount nodes (initDfs roots) = nodes.length := by
  unfold unvisitedCount initDfs
  rw [show (fun x => ! memB x ([] : List Nat)) = (fun _ : Nat => true) from
    rfl]
  rw [List.filter_true]

theorem chain_detect (n a : Nat) (ha : a ≤ n) :
    detect_cycles (chainAdj n a) (List.range (n + 1)) [0] =
      [a :: revRange (n + 1)] := by
  unfold detect_cycles
  have hdone : doneB (run (chainAdj n a) (2 * n + 3) (initDfs [0])) = true := by
    rw [chain_trace n a ha]
    exact popsSt_zero_done _ _
  have hfuel : 2 * n + 3 ≤
      dfsMeasure (chainAdj n a) (List.range (n + 1)) (initDfs [0]) := by
    have hU : unvisitedCount (List.range (n + 1)) (initDfs [0]) = n + 1 := by
      rw [unvisitedCount_init, List.length_range]
    have hmul : (n + 1) * 2 ≤
        (n + 1) * (2 * eTotal (chainAdj n a) (List.range (n + 1)) + 2) :=
      Nat.mul_le_mul_left (n + 1) (by omega)
    have hR : remTotal (initDfs [0]) = 0 := rfl
    have hL : (initDfs [0]).stack.length = 0 := rfl
    have hP : (initDfs [0]).pending.length = 1 := rfl
    simp only [dfsMeasure, hU, hR, hL, hP]
    omega
  rw [show dfsMeasure (chainAdj n a) (List.range (n + 1)) (initDfs [0]) =
      (dfsMeasure (chainAdj n a) (List.range (n + 1)) (initDfs [0]) -
        (2 * n + 3)) + (2 * n + 3) from by omega]
  rw [run_add, run_done _ _ _ hdone, chain_trace n a ha]
  rfl

/-- C6 (spec-modelled): the cycle-detection traversal — iterative with an
explicit frame stack, a per-path visited list and a single global visited
list, as the spec describes it (the implementation lives in the external Rust
analyzer, not in the Python sources) — (a) terminates for every finite closed
graph within an explicitly computed fuel bound, regardless of cycle depth or
graph width, and (b) on a chain `0 → 1 → ⋯ → n` whose last node's successor
list contains one of its own ancestors `a`, it reports exactly one
`CircularReference` finding, namely the back-edge target prepended to the
current path. -/
theorem claim_C6_cycle_detection :
    (∀ (adj : Nat → List Nat) (nodes roots : List Nat),
        Closed adj nodes → (∀ r ∈ roots, r ∈ nodes) →
        doneB (run adj (dfsMeasure adj nodes (initDfs roots))
          (initDfs roots)) = true) ∧
    (∀ n a : Nat, a ≤ n →
        detect_cycles (chainAdj n a) (List.range (n + 1)) [0] =
          [a :: revRange (n + 1)] ∧
        (detect_cycles (chainAdj n a) (List.range (n + 1)) [0]).length = 1) := by
  constructor
  · intro adj nodes roots hc hroots
    exact run_term adj nodes hc _ _ (inv_init adj nodes roots hroots)
      (Nat.le_refl _)
  · intro n a ha
    have h := chain_detect n a ha
    exact ⟨h, by rw [h]; rfl⟩

theorem claim_C6_witness :
    doneB (run (chainAdj 2 0)
        (dfsMeasure (chainAdj 2 0) (List.range 3) (initDfs [0]))
        (initDfs [0])) = true ∧
    detect_cycles (chainAdj 2 0) (List.range 3) [0] = [0 :: revRange 3] :=
  ⟨claim_C6_cycle_detection.1 (chainAdj 2 0) (List.range 3) [0]
      (by unfold Closed; decide) (by decide),
    (claim_C6_cycle_detection.2 2 0 (by omega)).1⟩

end CycleModel

end OxidizePdf
